import Mathlib

/-!
Verification of the document-retrieval subsystem of the supplychaingenai
repository, shallowly embedded from `src/rag/document_processor.py`,
`src/rag/rag_handler.py` and `src/rag/query_engine.py`.

Python strings are `List Char`, Python ints are `Int` (arbitrary precision,
as in Python), Python `None`-able reads are `Option`, raised exceptions are
`Except`.
-/

namespace SupplyChainRAG

/-! ### Python index primitives

Python slice and `str.rfind` bounds follow slice semantics: a negative index
is adjusted by adding the length, then the index is clamped to `[0, n]`. -/

/-- Adjust a Python slice bound `i` for a sequence of length `n`:
negative indices count from the end, and the result is clamped to `[0, n]`. -/
def pyAdj (n : Nat) (i : Int) : Nat :=
  if i < 0 then ((n : Int) + i).toNat else min i.toNat n

/-- Python `s[a:b]` on a string of characters. -/
def pySlice (s : List Char) (a b : Int) : List Char :=
  (s.take (pyAdj s.length b)).drop (pyAdj s.length a)

/-- Downward scan used by `pyRfind`: the largest `j < m` with `a ≤ j` and
`s[j] = c`, returned as an `Int`, or `-1` when there is none. -/
def rfindAux (s : List Char) (c : Char) (a : Nat) : Nat → Int
  | 0 => -1
  | j + 1 => if a ≤ j ∧ s.get? j = some c then (j : Int) else rfindAux s c a j

/-- Python `s.rfind(c, a, b)` for a single-character needle `c`: the highest
index `j` in the adjusted range `[a', b')` with `s[j] = c`, else `-1`. -/
def pyRfind (s : List Char) (c : Char) (a b : Int) : Int :=
  rfindAux s c (pyAdj s.length a) (pyAdj s.length b)

/-! ### DocumentProcessor.chunk_text (src/rag/document_processor.py:95-140)

The loop body first sets `end = min(start + chunk_size, len(text))`, then,
when `end` falls strictly inside the text, moves `end` back to just after the
nearest preceding newline (if any lies strictly after `start`), else just
after the nearest preceding space, else keeps the hard boundary. -/

/-- The `end` cursor one iteration of `chunk_text`'s loop computes from
`start` (lines 119-131 of document_processor.py); the source's local
`end = min(start + chunk_size, len(text))` is written out at each use. -/
def chunk_end (s : List Char) (chunkSize : Int) (start : Int) : Int :=
  if min (start + chunkSize) (s.length : Int) < (s.length : Int) then
    if pyRfind s '\n' start (min (start + chunkSize) (s.length : Int)) > start then
      pyRfind s '\n' start (min (start + chunkSize) (s.length : Int)) + 1
    else if pyRfind s ' ' start (min (start + chunkSize) (s.length : Int)) > start then
      pyRfind s ' ' start (min (start + chunkSize) (s.length : Int)) + 1
    else min (start + chunkSize) (s.length : Int)
  else min (start + chunkSize) (s.length : Int)

/-- The `while start < len(text) and count < self.max_chunks` loop of
`chunk_text`, recording the `(start, end)` span appended at each iteration
(the appended chunk is `text[start:end]`).  The fuel argument is exactly
`self.max_chunks - count`: the loop guard `count < self.max_chunks`
re-checks `count` (incremented once per iteration) every round, so the
recursion depth is the loop's own iteration bound, not an approximation.
`if end <= start: break` is the guard on line 134. -/
def chunk_spans (s : List Char) (chunkSize overlap : Int) : Nat → Int → List (Int × Int)
  | 0, _ => []
  | fuel + 1, start =>
    if start < (s.length : Int) then
      if chunk_end s chunkSize start ≤ start then []
      else (start, chunk_end s chunkSize start) ::
        chunk_spans s chunkSize overlap fuel (chunk_end s chunkSize start - overlap)
    else []

/-- Spans of the chunks `DocumentProcessor.chunk_text` returns: empty text
returns no chunks; `overlap >= chunk_size` is clamped to
`max(0, chunk_size // 2)` (Python floor division) before the loop runs. -/
def chunk_text_spans (s : List Char) (chunkSize overlap : Int) (maxChunks : Nat) :
    List (Int × Int) :=
  if s = [] then []
  else
    let ov := if overlap ≥ chunkSize then max 0 (Int.fdiv chunkSize 2) else overlap
    chunk_spans s chunkSize ov maxChunks 0

/-- `DocumentProcessor.chunk_text`: each loop iteration appends
`text[start:end]`, so the result is the slice of each recorded span. -/
def chunk_text (s : List Char) (chunkSize overlap : Int) (maxChunks : Nat) :
    List (List Char) :=
  (chunk_text_spans s chunkSize overlap maxChunks).map (fun p => pySlice s p.1 p.2)

/-! ### Chunker lemmas -/

theorem pyAdj_le (n : Nat) (i : Int) : pyAdj n i ≤ n := by
  unfold pyAdj
  split
  · omega
  · exact min_le_right _ _

theorem rfindAux_lt (s : List Char) (c : Char) (a : Nat) :
    ∀ m : Nat, rfindAux s c a m < (m : Int) := by
  intro m
  induction m with
  | zero => simp [rfindAux]
  | succ j ih =>
    unfold rfindAux
    split
    · push_cast; omega
    · have : (j : Int) < (j : Int) + 1 := by omega
      push_cast
      omega

theorem pyRfind_lt_length (s : List Char) (c : Char) (a b : Int) :
    pyRfind s c a b < (s.length : Int) := by
  unfold pyRfind
  have h1 := rfindAux_lt s c (pyAdj s.length a) (pyAdj s.length b)
  have h2 := pyAdj_le s.length b
  have h3 : ((pyAdj s.length b : Nat) : Int) ≤ (s.length : Int) := by exact_mod_cast h2
  exact lt_of_lt_of_le h1 h3

theorem chunk_end_gt (s : List Char) (cs : Int) (start : Int)
    (hcs : 1 ≤ cs) (h : start < (s.length : Int)) : start < chunk_end s cs start := by
  unfold chunk_end
  have h0 : start < min (start + cs) (s.length : Int) := by
    apply lt_min
    · omega
    · exact h
  split
  · split
    · omega
    · split
      · omega
      · exact h0
  · exact h0

theorem chunk_end_le (s : List Char) (cs : Int) (start : Int) :
    chunk_end s cs start ≤ (s.length : Int) := by
  unfold chunk_end
  have hn := pyRfind_lt_length s '\n' start (min (start + cs) (s.length : Int))
  have hs := pyRfind_lt_length s ' ' start (min (start + cs) (s.length : Int))
  split
  · split
    · omega
    · split
      · omega
      · exact min_le_right _ _
  · exact min_le_right _ _

theorem chunk_spans_length_le (s : List Char) (cs ov : Int) :
    ∀ (fuel : Nat) (start : Int), (chunk_spans s cs ov fuel start).length ≤ fuel := by
  intro fuel
  induction fuel with
  | zero => intro start; simp [chunk_spans]
  | succ n ih =>
    intro start
    unfold chunk_spans
    split
    · split
      · simp
      · simpa using ih _
    · simp

theorem chunk_spans_cover (s : List Char) (cs ov : Int)
    (h0 : 0 ≤ ov) (h1 : ov < cs) :
    ∀ (fuel : Nat) (start : Int),
      (chunk_spans s cs ov fuel start).length = fuel ∨
      ∀ i : Nat, start ≤ (i : Int) → i < s.length →
        ∃ p ∈ chunk_spans s cs ov fuel start, p.1 ≤ (i : Int) ∧ (i : Int) < p.2 := by
  intro fuel
  induction fuel with
  | zero => intro start; left; simp [chunk_spans]
  | succ n ih =>
    intro start
    by_cases hs : start < (s.length : Int)
    · have he : start < chunk_end s cs start := chunk_end_gt s cs start (by omega) hs
      have hrw : chunk_spans s cs ov (n + 1) start =
          (start, chunk_end s cs start) ::
            chunk_spans s cs ov n (chunk_end s cs start - ov) := by
        simp only [chunk_spans]
        rw [if_pos hs, if_neg (not_le.mpr he)]
      rcases ih (chunk_end s cs start - ov) with hlen | hcov
      · left; rw [hrw]; simp [hlen]
      · right
        intro i hi1 hi2
        by_cases hlt : (i : Int) < chunk_end s cs start
        · exact ⟨(start, chunk_end s cs start), by rw [hrw]; exact List.mem_cons_self _ _,
            hi1, hlt⟩
        · have : chunk_end s cs start - ov ≤ (i : Int) := by omega
          obtain ⟨p, hp, hc⟩ := hcov i this hi2
          exact ⟨p, by rw [hrw]; exact List.mem_cons_of_mem _ hp, hc⟩
    · right
      intro i hi1 hi2
      exfalso
      have : (i : Int) < (s.length : Int) := by exact_mod_cast hi2
      omega

/-! ### Claim theorems about the chunker -/

/-- C1: the claim as frozen is false: when the configured maximum chunk
count truncates the walk, trailing characters of the text are covered by no
returned chunk.  With `max_chunks = 1`, `chunk_size = 2`, `overlap = 0`
(so `0 ≤ overlap < max_len`), chunking `"abc"` returns the single chunk
`"ab"` and character position 2 lies in no returned span. -/
theorem c1_counterexample :
    chunk_text ['a', 'b', 'c'] 2 0 1 = [['a', 'b']] ∧
    ¬ ∃ p ∈ chunk_text_spans ['a', 'b', 'c'] 2 0 1,
        p.1 ≤ (2 : Int) ∧ (2 : Int) < p.2 := by
  constructor
  · rfl
  · decide

/-- C1 (amended): for `0 ≤ overlap < max_len` the number of chunks never
exceeds the configured `max_chunks`, and either every character position of
the text lies inside at least one returned chunk's span, or exactly
`max_chunks` chunks were produced (the cap silently truncated the tail). -/
theorem c1_chunk_coverage_or_cap (s : List Char) (cs ov : Int) (mc : Nat)
    (h0 : 0 ≤ ov) (h1 : ov < cs) :
    (chunk_text s cs ov mc).length ≤ mc ∧
    ((∀ i : Nat, i < s.length →
        ∃ p ∈ chunk_text_spans s cs ov mc, p.1 ≤ (i : Int) ∧ (i : Int) < p.2) ∨
      (chunk_text_spans s cs ov mc).length = mc) := by
  have hov : ¬ (ov ≥ cs) := not_le.mpr h1
  constructor
  · rw [chunk_text, List.length_map]
    unfold chunk_text_spans
    split
    · simp
    · exact chunk_spans_length_le s cs _ mc 0
  · by_cases hs : s = []
    · left
      intro i hi
      rw [hs] at hi
      simp at hi
    · have hrw : chunk_text_spans s cs ov mc = chunk_spans s cs ov mc 0 := by
        unfold chunk_text_spans
        rw [if_neg hs, if_neg hov]
      rcases chunk_spans_cover s cs ov h0 h1 mc 0 with hlen | hcov
      · right; rw [hrw]; exact hlen
      · left
        intro i hi
        rw [hrw]
        exact hcov i (Int.natCast_nonneg i) hi

/-- C1 witness: the amended theorem applied at `text = "hi"`,
`chunk_size = 5`, `overlap = 1`, `max_chunks = 5`. -/
theorem c1_chunk_coverage_or_cap_witness :
    (0 : Int) ≤ 1 ∧ (1 : Int) < 5 ∧
    ((chunk_text ['h', 'i'] 5 1 5).length ≤ 5 ∧
      ((∀ i : Nat, i < (['h', 'i'] : List Char).length →
          ∃ p ∈ chunk_text_spans ['h', 'i'] 5 1 5, p.1 ≤ (i : Int) ∧ (i : Int) < p.2) ∨
        (chunk_text_spans ['h', 'i'] 5 1 5).length = 5)) :=
  ⟨by norm_num, by norm_num,
    c1_chunk_coverage_or_cap ['h', 'i'] 5 1 5 (by norm_num) (by norm_num)⟩

/-- C8: when `overlap ≥ chunk_size`, `chunk_text` clamps the overlap to
`max(0, chunk_size // 2)` and proceeds; the result coincides with calling
`chunk_text` with `overlap = chunk_size // 2` (Python floor division). -/
theorem c8_overlap_clamped (s : List Char) (cs ov : Int) (mc : Nat)
    (h : ov ≥ cs) :
    chunk_text s cs ov mc = chunk_text s cs (Int.fdiv cs 2) mc := by
  have key : (if ov ≥ cs then max 0 (Int.fdiv cs 2) else ov)
      = (if Int.fdiv cs 2 ≥ cs then max 0 (Int.fdiv cs 2) else Int.fdiv cs 2) := by
    rw [if_pos h, Int.fdiv_eq_ediv cs (by norm_num)]
    split
    · rfl
    · omega
  simp only [chunk_text, chunk_text_spans]
  rw [key]

/-- C8 witness: the clamp theorem applied at `text = "a"`,
`chunk_size = 4`, `overlap = 4`, `max_chunks = 3`. -/
theorem c8_overlap_clamped_witness :
    (4 : Int) ≥ 4 ∧ chunk_text ['a'] 4 4 3 = chunk_text ['a'] 4 (Int.fdiv 4 2) 3 :=
  ⟨le_refl _, c8_overlap_clamped ['a'] 4 4 3 (le_refl _)⟩

/-- C9: `chunk_text` always terminates with a finite list: the loop guard
`count < self.max_chunks` increments `count` every iteration, so for every
text, chunk size and overlap the loop body runs at most `max_chunks` times
and the returned list has at most `max_chunks` chunks; no input loops
forever. -/
theorem c9_chunk_text_terminates (s : List Char) (cs ov : Int) (mc : Nat) :
    (chunk_text s cs ov mc).length ≤ mc := by
  rw [chunk_text, List.length_map]
  unfold chunk_text_spans
  split
  · simp
  · exact chunk_spans_length_le s cs _ mc 0

/-! ### RAGHandler's local (mock) vector store (src/rag/rag_handler.py)

A record of `self.mock_vectors` is a dict `{id, vector, metadata}`; metadata
is a Python dict with string keys and string values (the reserved key
`"text"` holds the chunk text).  Embedding vectors are modelled over `ℚ`
(exact stand-ins for the floats, whose exact values never matter to the
claims below). -/

/-- A Python metadata dict: association list of string key/value pairs. -/
abbrev Metadata := List (String × String)

/-- `metadata[k]` as an `Option` (`none` means the key is absent). -/
def mlookup (m : Metadata) (k : String) : Option String :=
  (m.find? (fun p => p.1 == k)).map (fun p => p.2)

/-- One entry of `RAGHandler.mock_vectors`. -/
structure MockRecord where
  id : String
  vector : List ℚ
  metadata : Metadata
deriving DecidableEq

/-- One dict in the list returned by `RAGHandler._mock_search` /
`RAGHandler.search`: keys `id`, `score`, `metadata`. -/
structure SearchResult where
  id : String
  score : ℚ
  metadata : Metadata
deriving DecidableEq

/-! `_cosine_similarity` computes
`np.dot(vec1, vec2) / (np.linalg.norm(vec1) * np.linalg.norm(vec2))` on
floats.  Only the zero-ness of the denominator is expressible exactly:
`np.linalg.norm v = sqrt (np_dot v v)`, so the denominator vanishes iff one
of the squared norms vanishes.  `_mock_search` is therefore parameterised by
the similarity function `sim` it applies to every stored vector. -/

/-- `np.dot` of `_cosine_similarity`, over exact rationals. -/
def np_dot (v1 v2 : List ℚ) : ℚ := (List.zipWith (fun a b => a * b) v1 v2).sum

/-- Square of `np.linalg.norm v`: the norm is zero iff this is zero. -/
def normSq (v : List ℚ) : ℚ := np_dot v v

/-- The denominator `norm_vec1 * norm_vec2` of the unguarded division in
`_cosine_similarity` is zero — i.e. the division is a division by zero —
iff one of the two squared norms is zero. -/
def cosine_denom_zero (v1 v2 : List ℚ) : Prop := normSq v1 = 0 ∨ normSq v2 = 0

/-- The `similarities` list `_mock_search` builds: one
`(doc, similarity(query_vector, doc["vector"]))` pair per stored record, in
storage (insertion) order. -/
def similarities (sim : List ℚ → List ℚ → ℚ) (store : List MockRecord)
    (qv : List ℚ) : List (MockRecord × ℚ) :=
  store.map (fun d => (d, sim qv d.vector))

/-- The comparator of `similarities.sort(key=lambda x: x[1], reverse=True)`:
`a` may come before `b` iff `a`'s score is ≥ `b`'s. -/
def scoreGE (a b : MockRecord × ℚ) : Prop := b.2 ≤ a.2

instance : DecidableRel scoreGE := fun a b => inferInstanceAs (Decidable (b.2 ≤ a.2))

instance : IsTotal (MockRecord × ℚ) scoreGE :=
  ⟨fun a b => (le_total b.2 a.2).imp (fun h => h) (fun h => h)⟩

instance : IsTrans (MockRecord × ℚ) scoreGE :=
  ⟨fun _ _ _ h1 h2 => le_trans h2 h1⟩

/-- The sorted `similarities` list.  Python's `list.sort` is a stable sort;
`reverse=True` keeps elements with equal keys in their original order, so
the unique stable descending sort — here realised by insertion sort — is
the faithful model. -/
def ranked (sim : List ℚ → List ℚ → ℚ) (store : List MockRecord)
    (qv : List ℚ) : List (MockRecord × ℚ) :=
  List.insertionSort scoreGE (similarities sim store qv)

/-- `RAGHandler._mock_search`: score every stored record, sort by
descending similarity (stable), keep the first `top_k`, and return each as
a `{id, score, metadata}` dict. -/
def mock_search (sim : List ℚ → List ℚ → ℚ) (store : List MockRecord)
    (qv : List ℚ) (topk : Nat) : List SearchResult :=
  ((ranked sim store qv).take topk).map (fun p => SearchResult.mk p.1.id p.2 p.1.metadata)

/-! ### Stability of the sort -/

theorem filter_orderedInsert_score (c : ℚ) (x : MockRecord × ℚ) :
    ∀ l : List (MockRecord × ℚ),
      (List.orderedInsert scoreGE x l).filter (fun p => decide (p.2 = c)) =
        if x.2 = c then x :: l.filter (fun p => decide (p.2 = c))
        else l.filter (fun p => decide (p.2 = c)) := by
  intro l
  induction l with
  | nil =>
    simp only [List.orderedInsert, List.filter]
    by_cases hx : x.2 = c
    · simp [hx]
    · simp [hx]
  | cons y ys ih =>
    simp only [List.orderedInsert]
    by_cases hxy : scoreGE x y
    · rw [if_pos hxy]
      by_cases hx : x.2 = c
      · simp [List.filter, hx]
      · simp [List.filter, hx]
    · rw [if_neg hxy]
      have hlt : x.2 < y.2 := lt_of_not_le hxy
      by_cases hx : x.2 = c
      · have hy : ¬ (y.2 = c) := by rw [← hx]; exact ne_of_gt hlt
        simp [List.filter, hy, hx, ih]
      · by_cases hy : y.2 = c
        · simp [List.filter, hy, hx, ih]
        · simp [List.filter, hy, hx, ih]

theorem filter_insertionSort_score (c : ℚ) :
    ∀ l : List (MockRecord × ℚ),
      (List.insertionSort scoreGE l).filter (fun p => decide (p.2 = c)) =
        l.filter (fun p => decide (p.2 = c)) := by
  intro l
  induction l with
  | nil => rfl
  | cons x xs ih =>
    simp only [List.insertionSort]
    rw [filter_orderedInsert_score c x _, ih]
    by_cases hx : x.2 = c
    · simp [List.filter, hx]
    · simp [List.filter, hx]

/-- C5: `_mock_search` returns at most `top_k` results, sorted by weakly
descending similarity score, and — because the sort is stable — the ranked
list restricted to any fixed score value keeps the stored records in
insertion order. -/
theorem c5_mock_search_sorted_stable_topk (sim : List ℚ → List ℚ → ℚ)
    (store : List MockRecord) (qv : List ℚ) (topk : Nat) :
    (mock_search sim store qv topk).length ≤ topk ∧
    List.Pairwise (fun a b : SearchResult => b.score ≤ a.score)
      (mock_search sim store qv topk) ∧
    ∀ c : ℚ, (ranked sim store qv).filter (fun p => decide (p.2 = c)) =
      (similarities sim store qv).filter (fun p => decide (p.2 = c)) := by
  refine ⟨?_, ?_, ?_⟩
  · rw [mock_search, List.length_map]
    exact (List.length_take_le _ _)
  · rw [mock_search, List.pairwise_map]
    have hs : List.Pairwise scoreGE (ranked sim store qv) :=
      List.sorted_insertionSort scoreGE (similarities sim store qv)
    exact (hs.sublist (List.take_sublist topk _))
  · intro c
    exact filter_insertionSort_score c (similarities sim store qv)

/-- Querying an empty local store returns the empty list, for every query
vector and every `top_k`. -/
theorem mock_search_empty (sim : List ℚ → List ℚ → ℚ) (qv : List ℚ) (topk : Nat) :
    mock_search sim [] qv topk = [] := by
  simp [mock_search, ranked, similarities, List.insertionSort]

/-- C10: the cosine-similarity computation of `_cosine_similarity` divides
by `norm(v1) * norm(v2)` without guarding against zero: whenever one vector
is all-zero the denominator is zero (in either argument position), and
`_mock_search` applies the similarity computation to every stored record,
so a zero vector in the store — or a zero query vector — reaches this
division by zero. -/
theorem c10_cosine_division_by_zero (z w qv : List ℚ)
    (sim : List ℚ → List ℚ → ℚ) (store : List MockRecord) (d : MockRecord)
    (hz : ∀ x ∈ z, x = 0) (hd : d ∈ store) :
    cosine_denom_zero z w ∧ cosine_denom_zero w z ∧
      (d, sim qv d.vector) ∈ similarities sim store qv := by
  have hzero : normSq z = 0 := by
    rw [normSq, np_dot]
    induction z with
    | nil => simp
    | cons a as ih =>
      have ha : a = 0 := hz a (List.mem_cons_self a as)
      have has : ∀ x ∈ as, x = 0 := fun x hx => hz x (List.mem_cons_of_mem a hx)
      simp only [List.zipWith_cons_cons, List.sum_cons, ha, zero_mul, zero_add]
      exact ih has
  refine ⟨Or.inl hzero, Or.inr hzero, ?_⟩
  exact List.mem_map_of_mem (fun d => (d, sim qv d.vector)) hd

/-- C10 witness: the zero vector `[0, 0]` against `[1, 2]`, with the record
containing the zero vector stored. -/
theorem c10_cosine_division_by_zero_witness :
    cosine_denom_zero [(0 : ℚ), 0] [1, 2] ∧ cosine_denom_zero [1, 2] [(0 : ℚ), 0] ∧
      (MockRecord.mk "z" [(0 : ℚ), 0] [], (1 : ℚ)) ∈
        similarities (fun _ _ => 1) [MockRecord.mk "z" [(0 : ℚ), 0] []] [1, 2] :=
  c10_cosine_division_by_zero [(0 : ℚ), 0] [1, 2] [1, 2] (fun _ _ => 1)
    [MockRecord.mk "z" [(0 : ℚ), 0] []] (MockRecord.mk "z" [(0 : ℚ), 0] [])
    (by intro x hx; rcases List.mem_cons.mp hx with h | h
        · exact h
        · simpa using h)
    (List.mem_cons_self _ _)

/-! ### Python dict update and substring membership -/

/-- Python `d[k] = v` on a dict kept as an insertion-ordered association
list: overwrite in place when the key exists, else append. -/
def dictSet (m : Metadata) (k v : String) : Metadata :=
  if m.any (fun p => p.1 == k) then
    m.map (fun p => if p.1 == k then (k, v) else p)
  else m ++ [(k, v)]

/-- Does the needle occur at the head of the haystack? -/
def leadMatches : List Char → List Char → Bool
  | [], _ => true
  | _ :: _, [] => false
  | a :: as, b :: bs => a == b && leadMatches as bs

/-- Does the needle occur anywhere in the haystack? -/
def containsSub : List Char → List Char → Bool
  | n, [] => n.isEmpty
  | n, l@(_ :: t) => leadMatches n l || containsSub n t

/-- Python `needle in hay` on strings: substring test. -/
def pyIn (needle hay : String) : Bool := containsSub needle.toList hay.toList

/-! ### RAGHandler.add_document (src/rag/rag_handler.py:148-176)

`add_document` draws a fresh uuid4 (modelled as the `docId` argument),
embeds the text, stores the text under the reserved `"text"` metadata key
and, in mock mode, **appends** the record to `self.mock_vectors` — there is
no replacement of an existing record with the same id. -/

/-- Mock-mode `RAGHandler.add_document`; returns the updated
`self.mock_vectors` list. -/
def add_document (embed : String → List ℚ) (store : List MockRecord)
    (docId : String) (text : String) (metadata : Metadata) : List MockRecord :=
  store ++ [MockRecord.mk docId (embed text) (dictSet metadata "text" text)]

/-- C6: the claim as frozen is false for the local store: storing a record
twice under the same identifier leaves **two** records with that id, not
one — mock-mode storage appends unconditionally. -/
theorem c6_counterexample :
    ((add_document (fun _ => []) (add_document (fun _ => []) [] "id1" "t" [])
        "id1" "t" []).filter (fun r => r.id == "id1")).length = 2 ∧
    ¬ ((add_document (fun _ => []) (add_document (fun _ => []) [] "id1" "t" [])
        "id1" "t" []).filter (fun r => r.id == "id1")).length = 1 := by
  constructor
  · rfl
  · decide

/-- C6 (amended): each mock-mode `add_document` call appends exactly one
record bearing the given id, so upserting the same id twice increases the
number of records with that id by two — replacement-on-reupsert holds only
for the remote Pinecone backend, not the local fallback. -/
theorem c6_add_document_appends (embed : String → List ℚ)
    (store : List MockRecord) (docId text : String) (metadata : Metadata) :
    ((add_document embed store docId text metadata).filter
        (fun r => r.id == docId)).length =
      (store.filter (fun r => r.id == docId)).length + 1 ∧
    ((add_document embed (add_document embed store docId text metadata)
          docId text metadata).filter (fun r => r.id == docId)).length =
      (store.filter (fun r => r.id == docId)).length + 2 := by
  have h1 : ∀ st : List MockRecord,
      ((add_document embed st docId text metadata).filter
        (fun r => r.id == docId)).length =
      (st.filter (fun r => r.id == docId)).length + 1 := by
    intro st
    rw [add_document, List.filter_append]
    simp
  refine ⟨h1 store, ?_⟩
  rw [h1 _, h1 store]

/-! ### RAGHandler.get_answer (src/rag/rag_handler.py:276-328)

`get_answer` searches with `top_k=3` and then evaluates
`"\n\n".join([result["text"] for result in results])`.  Each result dict
has exactly the keys `id`, `score` and `metadata` (the chunk text lives at
`result["metadata"]["text"]`), so the subscript `result["text"]` raises
`KeyError` whenever `results` is non-empty.  Raised exceptions are modelled
with `Except`. -/

/-- A raised Python exception. -/
inductive PyErr where
  | keyError (k : String)
  | indexError
  | typeError
deriving DecidableEq

/-- A Python value held in a search-result dict. -/
inductive PyVal where
  | str (s : String)
  | num (q : ℚ)
  | dict (m : Metadata)
deriving DecidableEq

/-- Subscript `result[k]` on a search-result dict: `_mock_search` (and the
Pinecone branch of `search`) build each result with exactly the keys `id`,
`score` and `metadata`; any other key raises `KeyError`. -/
def SearchResult.item (r : SearchResult) (k : String) : Except PyErr PyVal :=
  if k = "id" then Except.ok (PyVal.str r.id)
  else if k = "score" then Except.ok (PyVal.num r.score)
  else if k = "metadata" then Except.ok (PyVal.dict r.metadata)
  else Except.error (PyErr.keyError k)

/-- Using a Python value where a string is required. -/
def PyVal.asStr : PyVal → Except PyErr String
  | PyVal.str s => Except.ok s
  | _ => Except.error PyErr.typeError

/-- The value of `get_answer` / `process_query`: an answer string plus the
retrieved sources. -/
structure Answer where
  answer : String
  sources : List SearchResult
deriving DecidableEq

/-- Short-circuiting `any(...)` over a generator that may raise. -/
def anyM (f : SearchResult → Except PyErr Bool) : List SearchResult → Except PyErr Bool
  | [] => Except.ok false
  | r :: rs => do
    let b ← f r
    if b then pure true else anyM f rs

/-- `result["text"].lower()` for one result. -/
def resultTextLower (r : SearchResult) : Except PyErr String := do
  let v ← r.item "text"
  let s ← v.asStr
  pure s.toLower

/-- `results[0]["text"]` (IndexError on an empty list). -/
def resultsHeadText : List SearchResult → Except PyErr String
  | [] => Except.error PyErr.indexError
  | r :: _ => do
    let v ← r.item "text"
    v.asStr

/-- `RAGHandler._generate_mock_answer` (lines 307-328): keyword-dispatched
canned answers; every branch that consults the retrieved results reads
`result["text"]`, which raises `KeyError`. -/
def generate_mock_answer (query : String) (context : String)
    (results : List SearchResult) : Except PyErr String :=
  let _ := context
  if pyIn "abc analysis" query.toLower then do
    let b ← anyM (fun r => do
      pure (pyIn "abc analysis" (← resultTextLower r))) results
    if b then resultsHeadText results
    else pure "ABC Analysis is an inventory categorization method which consists of dividing items into three categories: A, B, and C based on their value and sales frequency."
  else if pyIn "jit" query.toLower || pyIn "just in time" query.toLower then do
    let b ← anyM (fun r => do
      let tl ← resultTextLower r
      pure (pyIn "jit" tl || pyIn "just-in-time" tl)) results
    if b then resultsHeadText results
    else pure "Just-in-Time (JIT) inventory management is a strategy that aligns raw-material orders from suppliers directly with production schedules to reduce waste and inventory costs."
  else if pyIn "eoq" query.toLower || pyIn "economic order quantity" query.toLower then do
    let b ← anyM (fun r => do
      let tl ← resultTextLower r
      pure (pyIn "eoq" tl || pyIn "economic order quantity" tl)) results
    if b then resultsHeadText results
    else pure "Economic Order Quantity (EOQ) is the order quantity that minimizes the total holding costs and ordering costs."
  else if pyIn "fifo" query.toLower || pyIn "first in first out" query.toLower then do
    let b ← anyM (fun r => do
      let tl ← resultTextLower r
      pure (pyIn "fifo" tl || pyIn "first-in, first-out" tl)) results
    if b then resultsHeadText results
    else pure "First-In, First-Out (FIFO) is an asset-management method in which assets produced or acquired first are sold, used, or disposed of first."
  else if pyIn "safety stock" query.toLower then do
    let b ← anyM (fun r => do
      pure (pyIn "safety stock" (← resultTextLower r))) results
    if b then resultsHeadText results
    else pure "Safety stock is a level of extra stock that is maintained to mitigate risk of stockouts caused by uncertainties in supply and demand."
  else
    match results with
    | [] => pure "I don\x27t have enough information to answer that question."
    | _ => resultsHeadText results

/-- `RAGHandler.get_answer`, mock (local fallback) mode: `search` embeds
the query and runs `_mock_search` with `top_k=3`; with no results the
canned insufficient-information answer is returned, otherwise the context
join over `result["text"]` is evaluated and the mock answer generated. -/
def get_answer (sim : List ℚ → List ℚ → ℚ) (embed : String → List ℚ)
    (store : List MockRecord) (query : String) : Except PyErr Answer :=
  let results := mock_search sim store (embed query) 3
  if results.isEmpty then
    Except.ok (Answer.mk "I don\x27t have enough information to answer that question." [])
  else do
    let texts ← results.mapM (fun r => do
      let v ← r.item "text"
      v.asStr)
    let ctx := String.intercalate "\n\n" texts
    let ans ← generate_mock_answer query ctx results
    Except.ok (Answer.mk ans results)

/-- C7: on an empty index, `query` (the local `_mock_search`) returns the
empty sequence and `get_answer` returns the canned
insufficient-information answer with an empty sources list, for every
similarity function, embedder, query vector, `top_k` and query string. -/
theorem c7_empty_index (sim : List ℚ → List ℚ → ℚ) (embed : String → List ℚ)
    (qv : List ℚ) (topk : Nat) (query : String) :
    mock_search sim [] qv topk = [] ∧
    get_answer sim embed [] query =
      Except.ok (Answer.mk "I don\x27t have enough information to answer that question." []) := by
  refine ⟨mock_search_empty sim qv topk, ?_⟩
  have h := mock_search_empty sim (embed query) 3
  simp [get_answer, h]

/-! ### QueryEngine (src/rag/query_engine.py)

`generate_response` deduplicates the retrieved contexts with
`list(set(context))`: a Python `set` iterates in an implementation-defined
(hash-based) order, so the enumeration is modelled by a parameter
`setEnum`, constrained in the theorems below to produce a duplicate-free
list with the same members.  `_generate_response_from_docs` keeps a doc as
a source only when its metadata carries a `file_name` key. -/

/-- `ctx[:300] + "..." if len(ctx) > 300 else ctx` (line 130). -/
def truncExcerpt (ctx : String) : String :=
  if ctx.length > 300 then ctx.take 300 ++ "..." else ctx

/-- `f"Based on the uploaded documents, here's information about
'{query}':\n\n"` (line 124). -/
def responseHeader (query : String) : String :=
  "Based on the uploaded documents, here\x27s information about \x27" ++ query ++ "\x27:\n\n"

/-- The `for i, ctx in enumerate(unique_contexts[:3])` loop body appending
`f"Document {i+1}: {ctx_preview}\n\n"` for each excerpt. -/
def excerptBlocks (start : String) (ex : List String) : String :=
  (ex.enum).foldl
    (fun acc p => acc ++ "Document " ++ toString (p.1 + 1) ++ ": " ++ truncExcerpt p.2 ++ "\n\n")
    start

/-- `QueryEngine.generate_response` (lines 106-133; the code after the
`return response` on line 133 is unreachable). -/
def generate_response (setEnum : List String → List String) (query : String)
    (context : List String) : String :=
  if context.isEmpty then
    "I couldn\x27t find any relevant information in the uploaded documents."
  else excerptBlocks (responseHeader query) ((setEnum context).take 3)

/-- One entry of the `sources` list `_generate_response_from_docs` builds:
`{"file_name": ..., "relevance": doc.get("score", 0)}`. -/
structure DocSource where
  file_name : String
  relevance : ℚ
deriving DecidableEq

/-- The dict `_generate_response_from_docs` returns. -/
structure DocsResponse where
  answer : String
  sources : List DocSource
deriving DecidableEq

/-- `QueryEngine._generate_response_from_docs` (lines 55-91): contexts are
the `metadata["text"]` of docs whose metadata has a `text` key; sources are
built **only** from docs whose metadata has a `file_name` key. -/
def generate_response_from_docs (setEnum : List String → List String)
    (query : String) (docs : List SearchResult) : DocsResponse :=
  DocsResponse.mk
    (generate_response setEnum query
      (docs.filterMap (fun d => mlookup d.metadata "text")))
    (docs.filterMap (fun d =>
      (mlookup d.metadata "file_name").map (fun fn => DocSource.mk fn d.score)))

/-- The dict `QueryEngine.process_query` returns: either the response built
from docs or the RAG handler's answer. -/
inductive QueryResponse where
  | fromDocs (d : DocsResponse)
  | fromHandler (a : Answer)
deriving DecidableEq

/-- `QueryEngine.process_query` (lines 34-53) instantiated with the local
store: `search_documents` delegates to `RAGHandler.search`, which in mock
mode is `_mock_search`; the condition `relevant_docs and not
self.rag_handler.mock` sends mock-mode callers to
`rag_handler.get_answer`. -/
def process_query (setEnum : List String → List String)
    (sim : List ℚ → List ℚ → ℚ) (embed : String → List ℚ)
    (store : List MockRecord) (mock : Bool) (query : String) (topk : Nat) :
    Except PyErr QueryResponse :=
  let relevantDocs := mock_search sim store (embed query) topk
  if relevantDocs.isEmpty = false ∧ mock = false then
    Except.ok (QueryResponse.fromDocs (generate_response_from_docs setEnum query relevantDocs))
  else
    (get_answer sim embed store query).map QueryResponse.fromHandler

/-- The single stored record of C2's scenario: its metadata text contains
the query phrase verbatim. -/
def c2record : MockRecord :=
  MockRecord.mk "chunk1" [1]
    [("text", "Inventory turnover measures how quickly inventory is sold and replaced.")]

/-- C2: against an index holding exactly the one matching record, the call
does **not** return normally: `get_answer` evaluates `result["text"]` on
result dicts whose only keys are `id`, `score` and `metadata`, so it raises
`KeyError('text')`; `process_query` in the local fallback mode propagates
the same exception. -/
theorem c2_get_answer_raises_keyerror :
    get_answer (fun _ _ => 1) (fun _ => [1]) [c2record] "inventory turnover" =
      Except.error (PyErr.keyError "text") ∧
    process_query (fun l => l) (fun _ _ => 1) (fun _ => [1]) [c2record] true
        "inventory turnover" 5 =
      Except.error (PyErr.keyError "text") := by
  constructor
  · rfl
  · rfl

/-- Retrieved docs of C3's counterexample: one result whose metadata has a
`text` key but no `file_name` key. -/
def c3docs : List SearchResult := [SearchResult.mk "d1" 1 [("text", "hello")]]

/-- C3: the claim as frozen is false: the returned sources list does not
contain all retrieved results — a retrieved doc whose metadata lacks a
`file_name` key is dropped, so one retrieved result yields an empty
sources list. -/
theorem c3_counterexample :
    c3docs ≠ [] ∧
    (generate_response_from_docs (fun l => l.dedup) "q" c3docs).sources = [] := by
  constructor
  · decide
  · rfl

/-- What `_generate_response_from_docs` actually guarantees (C3 amended):
sources are exactly the retrieved docs carrying a `file_name` metadata key
(as `(file_name, relevance)` pairs), and the answer concatenates at most 3
duplicate-free excerpts drawn from the retrieved texts — in the
enumeration order of a Python `set`, not necessarily retrieval order. -/
def C3Conclusion (setEnum : List String → List String) (query : String)
    (docs : List SearchResult) : Prop :=
  (∀ d ∈ docs, ∀ fn, mlookup d.metadata "file_name" = some fn →
      DocSource.mk fn d.score ∈ (generate_response_from_docs setEnum query docs).sources) ∧
  (∀ src ∈ (generate_response_from_docs setEnum query docs).sources, ∃ d ∈ docs,
      mlookup d.metadata "file_name" = some src.file_name ∧ src.relevance = d.score) ∧
  (docs.filterMap (fun d => mlookup d.metadata "text") = [] →
    (generate_response_from_docs setEnum query docs).answer =
      "I couldn\x27t find any relevant information in the uploaded documents.") ∧
  (docs.filterMap (fun d => mlookup d.metadata "text") ≠ [] →
    ∃ ex : List String, ex.length ≤ 3 ∧ ex.Nodup ∧
      (∀ e ∈ ex, e ∈ docs.filterMap (fun d => mlookup d.metadata "text")) ∧
      (generate_response_from_docs setEnum query docs).answer =
        excerptBlocks (responseHeader query) ex)

/-- C3 (amended): for every set-enumeration function (duplicate-free, same
members), answer synthesis deduplicates by exact string equality and uses
at most the first 3 unique excerpts of that enumeration, while the sources
list holds exactly the `file_name`-bearing retrieved docs. -/
theorem c3_sources_and_excerpts (setEnum : List String → List String)
    (hmem : ∀ (l : List String) (x : String), x ∈ setEnum l ↔ x ∈ l)
    (hnd : ∀ l : List String, (setEnum l).Nodup)
    (query : String) (docs : List SearchResult) :
    C3Conclusion setEnum query docs := by
  refine ⟨?_, ?_, ?_, ?_⟩
  · intro d hd fn hfn
    rw [generate_response_from_docs]
    exact List.mem_filterMap.mpr ⟨d, hd, by rw [hfn]; rfl⟩
  · intro src hsrc
    rw [generate_response_from_docs] at hsrc
    obtain ⟨d, hd, heq⟩ := List.mem_filterMap.mp hsrc
    obtain ⟨fn, hfn, hmk⟩ := Option.map_eq_some'.mp heq
    refine ⟨d, hd, ?_, ?_⟩
    · rw [hfn, ← hmk]
    · rw [← hmk]
  · intro hctx
    rw [generate_response_from_docs]
    simp only [generate_response, hctx, List.isEmpty_nil, if_true]
  · intro hctx
    refine ⟨(setEnum (docs.filterMap (fun d => mlookup d.metadata "text"))).take 3,
      ?_, ?_, ?_, ?_⟩
    · rw [List.length_take]; exact min_le_left _ _
    · exact (hnd _).sublist (List.take_sublist _ _)
    · intro e he
      exact (hmem _ e).mp (List.take_subset _ _ he)
    · rw [generate_response_from_docs]
      simp only [generate_response]
      rw [if_neg (by simpa [List.isEmpty_iff] using hctx)]

/-- C3 amended witness: the theorem applied with `setEnum = List.dedup`
(a concrete duplicate-free enumeration) at a one-result input carrying both
`text` and `file_name` metadata. -/
theorem c3_sources_and_excerpts_witness :
    C3Conclusion (fun l => l.dedup) "turnover"
      [SearchResult.mk "d1" 1 [("text", "hello"), ("file_name", "f.txt")]] :=
  c3_sources_and_excerpts (fun l => l.dedup) (fun _ _ => List.mem_dedup)
    (fun l => l.nodup_dedup) "turnover"
    [SearchResult.mk "d1" 1 [("text", "hello"), ("file_name", "f.txt")]]

/-! ### DocumentProcessor.extract_text and process_document
(src/rag/document_processor.py:35-93, 162-211)

`extract_text` dispatches on the (lower-cased) file extension; the `.txt`
and `.csv` branches wrap their reads in `try/except` blocks that catch the
I/O exception, print it, and **return the empty string** — no exception
leaves the function.  The read attempt is modelled as an `Option String`
(`none` = the read raised); a `ReadError` escaping to the caller would be
`Except.error`, which the function never produces.  `os.path`-derived
values (extension, basename, path) are passed in as arguments. -/

/-- `self.supported_extensions`. -/
def supported_extensions : List String := [".txt", ".csv", ".pdf", ".docx", ".xlsx"]

/-- `DocumentProcessor.is_supported_file` (on the lower-cased extension). -/
def is_supported_file (ext : String) : Bool := supported_extensions.contains ext

/-- The `ReadError` failure the spec's extraction contract names. -/
inductive ReadError where
  | ioFailure
deriving DecidableEq

/-- `DocumentProcessor.extract_text`: for `.csv` the `readResult` stands
for the rendered `df.head(1000).to_string()`; both fallible branches cap
the text at `max_text_chars` on success and return `""` on a caught
exception. -/
def extract_text (readResult : Option String) (ext basename : String)
    (maxTextChars : Nat) : Except ReadError String :=
  if ext = ".txt" then
    match readResult with
    | some t => Except.ok (t.take maxTextChars)
    | none => Except.ok ""
  else if ext = ".csv" then
    match readResult with
    | some t => Except.ok (t.take maxTextChars)
    | none => Except.ok ""
  else if ext = ".pdf" then Except.ok ("Mock PDF content from " ++ basename)
  else if ext = ".docx" then Except.ok ("Mock DOCX content from " ++ basename)
  else if ext = ".xlsx" then Except.ok ("Mock Excel content from " ++ basename)
  else Except.ok ""

/-- One processed chunk dict of `process_document` (`chunk_index` is the
extra metadata entry merged into the chunk's metadata dict). -/
structure DocChunk where
  id : String
  text : List Char
  embedding : List ℚ
  metadata : Metadata
  chunk_index : Nat
deriving DecidableEq

/-- `DocumentProcessor.process_document`: unsupported extension → `[]`;
empty extracted text → `[]`; otherwise chunk with the default
`chunk_size=1000, overlap=200`, embed (modelled by `embed`), merge
metadata, and zip chunks with embeddings into fresh-id records (`uuids` is
the `uuid.uuid4()` stream). -/
def process_document (readResult : Option String) (filePath ext basename : String)
    (maxTextChars maxChunks : Nat) (embed : List (List Char) → List (List ℚ))
    (uuids : Nat → String) (metadata : Metadata) : Except ReadError (List DocChunk) := do
  if is_supported_file ext = false then return []
  let text ← extract_text readResult ext basename maxTextChars
  if text = "" then return []
  let chunks := chunk_text text.toList 1000 200 maxChunks
  let embeddings := embed chunks
  let md := dictSet (dictSet (dictSet metadata "file_name" basename)
    "file_path" filePath) "file_type" ext
  return ((chunks.zip embeddings).enum).map
    (fun p => DocChunk.mk (uuids p.1) p.2.1 p.2.2 md p.1)

/-- C4: the claim as frozen is false: on an I/O failure reading a `.txt`
file (a registered extension), extraction does **not** fail with a
propagated `ReadError` — it silently returns the normal result `""`. -/
theorem c4_counterexample :
    extract_text none ".txt" "report.txt" 1000000 = Except.ok "" ∧
    extract_text none ".txt" "report.txt" 1000000 ≠ Except.error ReadError.ioFailure := by
  constructor
  · rfl
  · simp [extract_text]

/-- C4 (amended): when reading a `.txt` or `.csv` file raises an I/O
error, `extract_text` catches the exception and returns the empty string,
and `process_document` then stops at its empty-text guard: no chunk of the
document is indexed (and no error reaches the caller). -/
theorem c4_read_failure_returns_empty (filePath basename : String)
    (maxTextChars maxChunks : Nat) (embed : List (List Char) → List (List ℚ))
    (uuids : Nat → String) (metadata : Metadata) (ext : String)
    (h : ext = ".txt" ∨ ext = ".csv") :
    extract_text none ext basename maxTextChars = Except.ok "" ∧
    process_document none filePath ext basename maxTextChars maxChunks
      embed uuids metadata = Except.ok [] := by
  rcases h with h | h <;> subst h <;> exact ⟨rfl, rfl⟩

/-- C4 witness: the amended theorem applied to a `.txt` read failure. -/
theorem c4_read_failure_returns_empty_witness :
    ((".txt" : String) = ".txt" ∨ (".txt" : String) = ".csv") ∧
    extract_text none ".txt" "report.txt" 1000000 = Except.ok "" ∧
    process_document none "/docs/report.txt" ".txt" "report.txt" 1000000 5000
      (fun _ => []) (fun _ => "") [] = Except.ok [] :=
  ⟨Or.inl rfl, c4_read_failure_returns_empty "/docs/report.txt" "report.txt"
    1000000 5000 (fun _ => []) (fun _ => "") [] ".txt" (Or.inl rfl)⟩

end SupplyChainRAG
